import Mathlib

/-!
Verification of the host-side MacroPad bridge
(`Macropad_Hotkeys/host/macropad_appname.py`).

The Python script is shallowly embedded: bytes are `Nat` (values `< 256` in
practice), byte strings are `List Nat`, external collaborators (osascript
subprocesses, the OS serial channel) are modelled as explicit per-tick inputs,
and each Python function becomes a Lean function of the same name over the
explicit state it mutates in the source.
-/

namespace Macropad

/-! ## Line buffering

`run_session` accumulates serial bytes in `read_buf` and repeatedly executes
`line, read_buf = read_buf.split(b'\n', 1)` while a line-feed byte is present.
`splitB bs` returns the list of complete (line-feed-terminated) lines of `bs`
together with the remaining partial tail, exactly as that loop leaves them. -/

def splitB : List Nat → List (List Nat) × List Nat
  | [] => ([], [])
  | b :: rest =>
      let p := splitB rest
      if b = 10 then ([] :: p.1, p.2)
      else
        match p.1 with
        | [] => ([], b :: p.2)
        | l :: ls => ((b :: l) :: ls, p.2)

/-- `feed buf bytes`: append freshly read bytes to the pending buffer and
extract every complete line, as the `while b'\n' in read_buf` loop does. -/
def feed (buf bytes : List Nat) : List (List Nat) × List Nat :=
  splitB (buf ++ bytes)

/-- Feed a sequence of chunks one call at a time, accumulating the complete
lines and threading the partial tail. -/
def feedAll (buf : List Nat) : List (List Nat) → List (List Nat) × List Nat
  | [] => ([], buf)
  | c :: cs =>
      let p := feed buf c
      let q := feedAll p.2 cs
      (p.1 ++ q.1, q.2)

theorem splitB_no_line (bs : List Nat) (h : (splitB bs).1 = []) :
    splitB bs = ([], bs) := by
  induction bs with
  | nil => rfl
  | cons b rest ih =>
      by_cases hb : b = 10
      · simp [splitB, hb] at h
      · cases hrest : (splitB rest).1 with
        | nil =>
            have := ih hrest
            simp [splitB, hb, hrest, this]
        | cons l ls => simp [splitB, hb, hrest] at h

theorem splitB_tail_no_line (bs : List Nat) :
    (splitB (splitB bs).2).1 = [] := by
  induction bs with
  | nil => rfl
  | cons b rest ih =>
      by_cases hb : b = 10
      · simpa [splitB, hb] using ih
      · cases hrest : (splitB rest).1 with
        | nil =>
            have h1 : (splitB (b :: rest)).2 = b :: (splitB rest).2 := by
              simp [splitB, hb, hrest]
            rw [h1]
            simp [splitB, hb, ih]
        | cons l ls =>
            simpa [splitB, hb, hrest] using ih

theorem splitB_append (xs ys : List Nat) :
    splitB (xs ++ ys) =
      ((splitB xs).1 ++ (splitB ((splitB xs).2 ++ ys)).1,
       (splitB ((splitB xs).2 ++ ys)).2) := by
  induction xs with
  | nil => simp [splitB]
  | cons b rest ih =>
      by_cases hb : b = 10
      · have l1 : splitB ((10 : Nat) :: (rest ++ ys)) =
            ([] :: (splitB (rest ++ ys)).1, (splitB (rest ++ ys)).2) := by
          simp [splitB]
        have l2 : splitB ((10 : Nat) :: rest) =
            ([] :: (splitB rest).1, (splitB rest).2) := by
          simp [splitB]
        subst hb
        rw [List.cons_append, l1, l2, ih]
        simp
      · cases hrest : (splitB rest).1 with
        | nil =>
            have hr := splitB_no_line _ hrest
            have hsplit : splitB (b :: rest) = ([], b :: rest) := by
              simp [splitB, hb, hrest, hr]
            rw [List.cons_append, hsplit]
            simp [List.cons_append]
        | cons l ls =>
            have hsplit : splitB (b :: rest) = ((b :: l) :: ls, (splitB rest).2) := by
              simp [splitB, hb, hrest]
            have l1 : splitB (b :: (rest ++ ys)) =
                ((b :: l) :: (ls ++ (splitB ((splitB rest).2 ++ ys)).1),
                 (splitB ((splitB rest).2 ++ ys)).2) := by
              simp [splitB, hb, ih, hrest]
            rw [List.cons_append, l1, hsplit]
            simp

theorem feedAll_eq (buf : List Nat) (h : (splitB buf).1 = [])
    (chunks : List (List Nat)) :
    feedAll buf chunks = splitB (buf ++ chunks.flatten) := by
  induction chunks generalizing buf with
  | nil => simp [feedAll, splitB_no_line buf h]
  | cons c cs ih =>
      have htail : (splitB (splitB (buf ++ c)).2).1 = [] :=
        splitB_tail_no_line (buf ++ c)
      have hih := ih ((splitB (buf ++ c)).2) htail
      simp only [feedAll, feed, List.flatten_cons]
      rw [hih, ← List.append_assoc, splitB_append (buf ++ c) cs.flatten]

/-! ## Text decoding

`line.decode("utf-8", errors="replace")`: UTF-8 decoding in which each
maximal invalid subsequence is replaced by U+FFFD instead of raising. -/

def replChar : Char := Char.ofNat 0xFFFD

def isCont (b : Nat) : Bool := 0x80 ≤ b && b ≤ 0xBF

def contLo (b : Nat) : Nat :=
  if b = 0xE0 then 0xA0 else if b = 0xF0 then 0x90 else 0x80

def contHi (b : Nat) : Nat :=
  if b = 0xED then 0x9F else if b = 0xF4 then 0x8F else 0xBF

def inContRange (lead b : Nat) : Bool := contLo lead ≤ b && b ≤ contHi lead

/-- Decode one scalar starting at lead byte `b` with tail `rest`: the decoded
character (U+FFFD for a maximal invalid subsequence) and how many tail bytes
the sequence consumed beyond the lead byte. -/
def utf8Step (b : Nat) (rest : List Nat) : Char × Nat :=
  if b < 0x80 then (Char.ofNat b, 0)
  else if b < 0xC2 then (replChar, 0)
  else if b ≤ 0xDF then
    match rest with
    | c1 :: _ =>
        if isCont c1 then (Char.ofNat ((b - 0xC0) * 64 + (c1 - 0x80)), 1)
        else (replChar, 0)
    | [] => (replChar, 0)
  else if b ≤ 0xEF then
    match rest with
    | c1 :: c2 :: _ =>
        if inContRange b c1 then
          if isCont c2 then
            (Char.ofNat ((b - 0xE0) * 4096 + (c1 - 0x80) * 64 + (c2 - 0x80)), 2)
          else (replChar, 1)
        else (replChar, 0)
    | [c1] => if inContRange b c1 then (replChar, 1) else (replChar, 0)
    | [] => (replChar, 0)
  else if b ≤ 0xF4 then
    match rest with
    | c1 :: c2 :: c3 :: _ =>
        if inContRange b c1 then
          if isCont c2 then
            if isCont c3 then
              (Char.ofNat ((b - 0xF0) * 262144 + (c1 - 0x80) * 4096 +
                 (c2 - 0x80) * 64 + (c3 - 0x80)), 3)
            else (replChar, 2)
          else (replChar, 1)
        else (replChar, 0)
    | [c1, c2] =>
        if inContRange b c1 then
          if isCont c2 then (replChar, 2) else (replChar, 1)
        else (replChar, 0)
    | [c1] => if inContRange b c1 then (replChar, 1) else (replChar, 0)
    | [] => (replChar, 0)
  else (replChar, 0)

/-- Fuel-driven decode loop; each step consumes at least the lead byte, so
`bs.length` fuel always suffices. -/
def utf8DecodeGo : Nat → List Nat → List Char
  | 0, _ => []
  | _ + 1, [] => []
  | fuel + 1, b :: rest =>
      let s := utf8Step b rest
      s.1 :: utf8DecodeGo fuel (rest.drop s.2)

def utf8DecodeReplace (bs : List Nat) : List Char := utf8DecodeGo bs.length bs

/-- `bytes.decode("utf-8", errors="replace")` as a `String`. -/
def decodeReplace (bs : List Nat) : String := String.mk (utf8DecodeReplace bs)

/-! ## Python `str.strip` and `int(...)`

`String.trim` and `String.toInt?` from core are position-based and do not
reduce under the kernel, so the Python operations are modelled directly over
the character list. -/

def isSpaceChar (c : Char) : Bool :=
  c = ' ' || c = '\t' || c = '\n' || c = '\x0d' || c = '\x0b' || c = '\x0c'

/-- Python `str.strip()` (default whitespace set, ASCII part). -/
def pyStrip (s : String) : String :=
  String.mk (((s.data.dropWhile isSpaceChar).reverse.dropWhile isSpaceChar).reverse)

def digitsToNatGo (acc : Nat) : List Char → Option Nat
  | [] => some acc
  | c :: cs => if c.isDigit then digitsToNatGo (acc * 10 + (c.toNat - 48)) cs else none

def digitsToNat : List Char → Option Nat
  | [] => none
  | ds => digitsToNatGo 0 ds

/-- Python `int(s)`: optional sign and a non-empty digit string, surrounding
whitespace allowed; `none` models the `ValueError` raise. -/
def pyInt (s : String) : Option Int :=
  match (pyStrip s).data with
  | '-' :: ds => (digitsToNat ds).map fun n => -(n : Int)
  | '+' :: ds => (digitsToNat ds).map fun n => (n : Int)
  | ds => (digitsToNat ds).map fun n => (n : Int)

/-! ## MicMuteAction (`toggle_mic`, `saved_input_volume`)

The script keeps `saved_input_volume : Option Int` (`None` in Python) as
process-wide state; its two-variant reading is `MicState`.  The osascript
subprocesses are external collaborators: the query-and-mute call's stripped
stdout is drawn from an oracle list threaded through the model, and `int(...)`
is modelled by `pyInt` (failure raises `ValueError`). -/

inductive PyExn
  | valueError
  deriving DecidableEq, Repr

inductive HostCall
  | queryAndMute          -- osascript: read input volume, set it to 0, print it
  | restoreVolume (v : Int)  -- fire-and-forget osascript: set input volume v
  deriving DecidableEq, Repr

inductive MicState
  | unmuted
  | muted (savedVolume : Int)
  deriving DecidableEq, Repr

/-- The `MicState` reading of the `saved_input_volume` global. -/
def micStateOf : Option Int → MicState
  | none => .unmuted
  | some v => .muted v

/-- Module-level initial value of `saved_input_volume`. -/
def saved_input_volume_init : Option Int := none

/-- One invocation of `toggle_mic`.  `saved` is `saved_input_volume` on entry;
`oracle` supplies the stripped stdout of each query-and-mute osascript call in
order.  Returns the updated `saved_input_volume`, the remaining oracle and the
host requests issued, or the uncaught exception. -/
def toggle_mic (saved : Option Int) (oracle : List String) :
    Except PyExn (Option Int × List String × List HostCall) :=
  match saved with
  | none =>
      match pyInt (pyStrip (oracle.headD "")) with
      | some v => .ok (some v, oracle.tail, [HostCall.queryAndMute])
      | none => .error .valueError
  | some v => .ok (none, oracle, [HostCall.restoreVolume v])

/-- Host input volume after the synchronous effects of a list of host calls:
the query-and-mute osascript is awaited and leaves the volume at 0; the
restore request is issued without awaiting completion, so it has no
synchronous effect. -/
def volumeAfterSync (vol : Int) : List HostCall → Int
  | [] => vol
  | HostCall.queryAndMute :: rest => volumeAfterSync 0 rest
  | HostCall.restoreVolume _ :: rest => volumeAfterSync vol rest

/-! ## CommandRouter (`handle_serial_command`) and the session loop -/

/-- Observable events of a session: payloads written to the channel, command
dispatches, the "Unknown command" log line, and host (osascript) requests. -/
inductive Event
  | wrote (payload : String)
  | dispatched (cmd : String)
  | unknownCmd (cmd : String)
  | hostCall (c : HostCall)
  deriving DecidableEq, Repr

structure DispatchOut where
  saved : Option Int
  oracle : List String
  events : List Event
  exn : Option PyExn
  deriving DecidableEq, Repr

/-- `handle_serial_command(cmd)`: `MIC_TOGGLE` invokes `toggle_mic`
(whose `ValueError` propagates); anything else is logged and dropped. -/
def handle_serial_command (saved : Option Int) (oracle : List String)
    (cmd : String) : DispatchOut :=
  if cmd = "MIC_TOGGLE" then
    match toggle_mic saved oracle with
    | .ok (s', o', calls) =>
        ⟨s', o', Event.dispatched cmd :: calls.map Event.hostCall, none⟩
    | .error e => ⟨saved, oracle, [Event.dispatched cmd], some e⟩
  else ⟨saved, oracle, [Event.unknownCmd cmd], none⟩

/-- The per-chunk dispatch loop of `run_session`: each complete line is
decoded, stripped, dropped if empty, and otherwise dispatched; an exception
aborts the loop. -/
def processLines (saved : Option Int) (oracle : List String) :
    List (List Nat) → DispatchOut
  | [] => ⟨saved, oracle, [], none⟩
  | l :: rest =>
      let cmd := pyStrip (decodeReplace l)
      if cmd = "" then processLines saved oracle rest
      else
        let d := handle_serial_command saved oracle cmd
        match d.exn with
        | some _ => d
        | none =>
            let r := processLines d.saved d.oracle rest
            ⟨r.saved, r.oracle, d.events ++ r.events, r.exn⟩

inductive DisconnectReason
  | eof
  | readError
  | writeError
  deriving DecidableEq, Repr

/-- Per-tick outcome of `select` + `os.read`: nothing readable, a chunk
(`chunk []` is a successful read of zero bytes, i.e. peer EOF), or `OSError`
raised by `os.read`. -/
inductive ReadEvent
  | noData
  | chunk (bytes : List Nat)
  | readErr
  deriving DecidableEq, Repr

/-- Environment of one tick: the read outcome, the stdout of the
frontmost-app osascript query, and whether `os.write` succeeds. -/
structure TickInput where
  readEv : ReadEvent
  appReply : String
  writeOk : Bool
  deriving DecidableEq, Repr

/-- `run_session`'s mutable state: `last_app`, `read_buf`, plus the threaded
process-wide `saved_input_volume` and the volume-reply oracle. -/
structure SessionState where
  last_app : String
  read_buf : List Nat
  saved : Option Int
  oracle : List String
  deriving DecidableEq, Repr

inductive TickOutcome
  | next (st : SessionState)
  | ret (r : DisconnectReason)
  | raised (e : PyExn)
  deriving DecidableEq, Repr

/-- Phase (b)-(c) of a tick: query the frontmost app, strip it, and write
`"<app>\n"` when it is non-empty and differs from `last_app`; a failed write
returns immediately, a successful one updates `last_app`. -/
def appPush (st : SessionState) (inp : TickInput) (evs : List Event) :
    TickOutcome × List Event :=
  let app := pyStrip inp.appReply
  if app ≠ "" ∧ app ≠ st.last_app then
    if inp.writeOk then
      (.next { st with last_app := app }, evs ++ [Event.wrote (app ++ "\n")])
    else (.ret .writeError, evs)
  else (.next st, evs)

/-- One iteration of `run_session`'s `while True` loop. -/
def sessionTick (st : SessionState) (inp : TickInput) : TickOutcome × List Event :=
  match inp.readEv with
  | .readErr => (.ret .readError, [])
  | .chunk bytes =>
      if bytes = [] then (.ret .eof, [])
      else
        let p := feed st.read_buf bytes
        let d := processLines st.saved st.oracle p.1
        match d.exn with
        | some e => (.raised e, d.events)
        | none =>
            appPush { st with read_buf := p.2, saved := d.saved, oracle := d.oracle }
              inp d.events
  | .noData => appPush st inp []

inductive SessionExit
  | disconnected (r : DisconnectReason)
  | raised (e : PyExn)
  | running (st : SessionState)
  deriving DecidableEq, Repr

/-- `run_session` driven by a finite list of tick environments; `running st`
means the inputs ran out with the loop still going. -/
def run_session (st : SessionState) : List TickInput → SessionExit × List Event
  | [] => (.running st, [])
  | i :: rest =>
      match sessionTick st i with
      | (.next st', evs) =>
          let r := run_session st' rest
          (r.1, evs ++ r.2)
      | (.ret r, evs) => (.disconnected r, evs)
      | (.raised e, evs) => (.raised e, evs)

/-- Session state at the top of `run_session`: `last_app = ""`, empty buffer. -/
def initSession (saved : Option Int) (oracle : List String) : SessionState :=
  ⟨"", [], saved, oracle⟩

def writesOf (evs : List Event) : List String :=
  evs.filterMap fun e =>
    match e with
    | .wrote p => some p
    | _ => none

/-- The names `run_session` sends, given the stripped app-query results and
the `last_app` value: non-empty and different from the previous sent name. -/
def sentNames (last : String) : List String → List String
  | [] => []
  | a :: rest =>
      if a ≠ "" ∧ a ≠ last then a :: sentNames a rest else sentNames last rest

/-- Remove consecutive duplicates, seeded with the previously seen value. -/
def dropConsecDups (last : String) : List String → List String
  | [] => []
  | a :: rest =>
      if a = last then dropConsecDups last rest else a :: dropConsecDups a rest

/-! ## PortLocator (`find_port`) and SerialChannel open (`open_port`) -/

def RETRY_INTERVAL : Nat := 5

def insertSorted (s : String) : List String → List String
  | [] => [s]
  | t :: ts => if s ≤ t then s :: t :: ts else t :: insertSorted s ts

/-- Python's `sorted` on the glob result (insertion sort). -/
def sortStrings : List String → List String
  | [] => []
  | s :: ss => insertSorted s (sortStrings ss)

/-- `find_port()`: an explicit `sys.argv[1]` wins; otherwise the
lexicographically first glob match; `None` when nothing matches. -/
def find_port (argvTail globMatches : List String) : Option String :=
  match argvTail with
  | a :: _ => some a
  | [] =>
      match sortStrings globMatches with
      | p :: _ => some p
      | [] => none

/-- Environment of one `open_port` call: what each OS call would do. -/
structure OpenEnv where
  sttyStatus : Nat       -- exit status of the `stty` command run via os.system
  openRes : Option Nat   -- `os.open`: a file descriptor, or `none` for OSError
  drainOk : Bool         -- the drain loop's select/read calls raise no OSError
  fcntlOk : Bool         -- the F_GETFL/F_SETFL pair raises no OSError
  deriving DecidableEq, Repr

/-- What `open_port` hands back: a file descriptor (with the environment fact
of whether the stty configuration actually succeeded), or `None`. -/
inductive OpenOutcome
  | channel (fd : Nat) (configured : Bool)
  | failure
  deriving DecidableEq, Repr

/-- `open_port(port)`.  The source runs `os.system("stty ...")` and never
inspects its exit status, so only OSError from `os.open`, the drain reads, or
`fcntl` reaches the `except OSError` handler that returns `None`. -/
def open_port (env : OpenEnv) : OpenOutcome :=
  match env.openRes with
  | none => .failure
  | some fd =>
      if env.drainOk && env.fcntlOk then .channel fd (env.sttyStatus == 0)
      else .failure

/-! ## ReconnectSupervisor (`main`) -/

/-- How one `run_session(fd)` call ends, as the supervisor sees it. -/
inductive SessionResult
  | disconnected (r : DisconnectReason)  -- run_session returned
  | interrupted                          -- KeyboardInterrupt during the session
  | raised (e : PyExn)                   -- any other exception escaped
  deriving DecidableEq, Repr

def isDisconnect : SessionResult → Bool
  | .disconnected _ => true
  | _ => false

/-- Environment of one iteration of `main`'s `while True` loop. -/
structure IterInput where
  argvTail : List String     -- sys.argv[1:]
  globMatches : List String  -- glob result for /dev/cu.usbmodem*
  openOk : Bool              -- open_port returns a fd rather than None
  sess : SessionResult       -- how run_session ends, when reached
  deriving DecidableEq, Repr

/-- Observable supervisor events, in program order. -/
inductive SupEvent
  | locating                 -- top of the loop: find_port runs
  | sleep (seconds : Nat)    -- time.sleep
  | connectedTo (p : String) -- "Connected to <p>"
  | closedChannel            -- os.close(fd) in the finally block
  | stoppedLog               -- "\nStopped." printed by the interrupt handler
  deriving DecidableEq, Repr

inductive SupExit
  | stopped              -- clean break out of the loop (interrupt)
  | crashed (e : PyExn)  -- an exception propagated out of main
  | looping              -- inputs exhausted with the loop still running
  deriving DecidableEq, Repr

/-- One iteration of `main`'s loop: locate, open, run the session, and close
the channel in the `finally` block on every exit path. -/
def mainStep (i : IterInput) : List SupEvent × Option SupExit :=
  match find_port i.argvTail i.globMatches with
  | none => ([.locating, .sleep RETRY_INTERVAL], none)
  | some p =>
      if i.openOk then
        match i.sess with
        | .disconnected _ =>
            ([.locating, .connectedTo p, .closedChannel, .sleep RETRY_INTERVAL], none)
        | .interrupted =>
            ([.locating, .connectedTo p, .stoppedLog, .closedChannel], some .stopped)
        | .raised e =>
            ([.locating, .connectedTo p, .closedChannel], some (.crashed e))
      else ([.locating, .sleep RETRY_INTERVAL], none)

/-- The supervisor loop over a finite list of iteration environments. -/
def mainRun : List IterInput → List SupEvent × SupExit
  | [] => ([], .looping)
  | i :: rest =>
      let s := mainStep i
      match s.2 with
      | some ex => (s.1, ex)
      | none =>
          let r := mainRun rest
          (s.1 ++ r.1, r.2)

/-! ## Theorems -/

theorem sentNames_eq_dropConsecDups (last : String) (l : List String) :
    sentNames last l = dropConsecDups last (l.filter (· ≠ "")) := by
  induction l generalizing last with
  | nil => rfl
  | cons a rest ih =>
      by_cases ha : a = ""
      · simp [sentNames, dropConsecDups, ha, ih]
      · by_cases hl : a = last
        · subst hl
          simp [sentNames, dropConsecDups, ha, ih]
        · simp [sentNames, dropConsecDups, ha, hl, ih]

theorem dropConsecDups_head_ne (l : List String) (h : ∀ a ∈ l, a ≠ "") :
    (dropConsecDups "" l).head? = l.head? := by
  cases l with
  | nil => rfl
  | cons a rest =>
      have ha : ¬a = "" := h a (by simp)
      simp [dropConsecDups, ha]

theorem run_session_noData_writes (st : SessionState) (apps : List String) :
    writesOf (run_session st
        (apps.map fun a => ⟨ReadEvent.noData, a, true⟩)).2 =
      (sentNames st.last_app (apps.map pyStrip)).map (· ++ "\n") := by
  induction apps generalizing st with
  | nil => simp [run_session, writesOf, sentNames]
  | cons a rest ih =>
      by_cases h : pyStrip a ≠ "" ∧ pyStrip a ≠ st.last_app
      · simp [run_session, sessionTick, appPush, h, writesOf, sentNames,
          List.filterMap_append]
        exact ih _
      · simp [run_session, sessionTick, appPush, h, writesOf, sentNames,
          List.filterMap_append]
        exact ih _

/-- C1: over a run of session ticks with no inbound data in which all writes
succeed, the payloads written to the channel are exactly the non-empty
(stripped) queried app names with consecutive duplicates removed, each with a
line-feed appended; the first payload is the first non-empty queried name; and
a tick whose queried name is empty or equal to the last successfully written
name writes nothing and leaves the session state unchanged. -/
theorem run_session_payload_sequence (saved : Option Int) (oracle : List String)
    (apps : List String) :
    writesOf (run_session (initSession saved oracle)
        (apps.map fun a => ⟨ReadEvent.noData, a, true⟩)).2 =
      (dropConsecDups "" ((apps.map pyStrip).filter (· ≠ ""))).map (· ++ "\n") ∧
    (writesOf (run_session (initSession saved oracle)
        (apps.map fun a => ⟨ReadEvent.noData, a, true⟩)).2).head? =
      (((apps.map pyStrip).filter (· ≠ "")).head?).map (· ++ "\n") ∧
    (∀ (st : SessionState) (a : String) (w : Bool),
       pyStrip a = "" ∨ pyStrip a = st.last_app →
       sessionTick st ⟨ReadEvent.noData, a, w⟩ = (.next st, [])) := by
  have h1 : writesOf (run_session (initSession saved oracle)
      (apps.map fun a => ⟨ReadEvent.noData, a, true⟩)).2 =
      (dropConsecDups "" ((apps.map pyStrip).filter (· ≠ ""))).map (· ++ "\n") := by
    rw [run_session_noData_writes, sentNames_eq_dropConsecDups]
    simp [initSession]
  refine ⟨h1, ?_, ?_⟩
  · rw [h1, List.head?_map,
      dropConsecDups_head_ne _ (fun a ha => by
        have := List.of_mem_filter ha
        simpa using this)]
  · intro st a w h
    have hcond : ¬(pyStrip a ≠ "" ∧ pyStrip a ≠ st.last_app) := by
      rcases h with h | h <;> simp [h]
    simp [sessionTick, appPush, hcond]

theorem run_session_payload_sequence_witness :
    sessionTick (initSession none []) ⟨ReadEvent.noData, "  ", true⟩ =
      (.next (initSession none []), []) :=
  (run_session_payload_sequence none [] []).2.2 (initSession none []) "  " true
    (Or.inl (by decide))

/-- C2: for every byte string and every partition of it into consecutive
chunks, feeding the chunks one at a time through the session's line-buffering
step (append to buffer, split on line-feed, decode with invalid sequences
replaced) yields the same sequence of complete lines — as raw byte lines and
after decoding — in the same order as feeding the whole byte string in a
single call, with the same remaining partial tail. -/
theorem feed_call_boundary_independent (chunks : List (List Nat)) :
    feedAll [] chunks = feed [] chunks.flatten ∧
    (feedAll [] chunks).1.map decodeReplace =
      (feed [] chunks.flatten).1.map decodeReplace ∧
    (feedAll [] chunks).2 = (feed [] chunks.flatten).2 := by
  have h : feedAll [] chunks = feed [] chunks.flatten := feedAll_eq [] rfl chunks
  exact ⟨h, by rw [h], by rw [h]⟩

/-- C3: while `saved_input_volume` is `None` (MicState `Unmuted`) and the host
input volume reads `v`, `toggle_mic` queries and stores `v`, the awaited
query-and-mute call leaves the host input volume at 0, and the state becomes
`Muted v`; a second invocation in state `Muted v` issues a restore-to-`v`
request without awaiting it and returns the state to `Unmuted`.  The same
holds when entered through a dispatched `"MIC_TOGGLE"` command line. -/
theorem toggle_mic_mute_unmute_cycle (v : Int) (s : String) (o o2 : List String)
    (h : pyInt (pyStrip s) = some v) :
    toggle_mic none (s :: o) = .ok (some v, o, [HostCall.queryAndMute]) ∧
    volumeAfterSync v [HostCall.queryAndMute] = 0 ∧
    micStateOf (some v) = .muted v ∧
    toggle_mic (some v) o2 = .ok (none, o2, [HostCall.restoreVolume v]) ∧
    micStateOf none = .unmuted ∧
    handle_serial_command none (s :: o) "MIC_TOGGLE" =
      ⟨some v, o, [Event.dispatched "MIC_TOGGLE",
                   Event.hostCall HostCall.queryAndMute], none⟩ ∧
    handle_serial_command (some v) o2 "MIC_TOGGLE" =
      ⟨none, o2, [Event.dispatched "MIC_TOGGLE",
                  Event.hostCall (HostCall.restoreVolume v)], none⟩ := by
  refine ⟨?_, rfl, rfl, rfl, rfl, ?_, ?_⟩ <;>
    simp [toggle_mic, handle_serial_command, h]

theorem toggle_mic_mute_unmute_cycle_witness :
    pyInt (pyStrip "42") = some 42 ∧
    toggle_mic none ["42"] = .ok (some 42, [], [HostCall.queryAndMute]) ∧
    toggle_mic (some 42) [] = .ok (none, [], [HostCall.restoreVolume 42]) := by
  have h := toggle_mic_mute_unmute_cycle 42 "42" [] [] (by rfl)
  exact ⟨by rfl, h.1, h.2.2.2.1⟩

/-- C6: a tick whose read reports the peer closed (a successful zero-byte read
while readable) makes `run_session` return `DisconnectReason.eof` on that same
tick with no further writes or host calls; and on every exit path of an opened
session (any `DisconnectReason`, an interrupt, or an escaping exception) the
supervisor closes the channel exactly once, while iterations that never opened
a channel close nothing. -/
theorem eof_returns_and_close_once :
    (∀ (st : SessionState) (app : String) (w : Bool),
       sessionTick st ⟨.chunk [], app, w⟩ = (.ret .eof, [])) ∧
    (∀ i : IterInput,
       (mainStep i).1.count .closedChannel =
         if (find_port i.argvTail i.globMatches).isSome ∧ i.openOk then 1 else 0) := by
  constructor
  · intro st app w; rfl
  · intro i
    rcases i with ⟨argv, glob, openOk, sess⟩
    cases hfp : find_port argv glob with
    | none => simp [mainStep, hfp]
    | some p =>
        cases openOk with
        | false => simp [mainStep, hfp]
        | true => cases sess <;> simp [mainStep, hfp, List.count_cons]

/-- C8 counterexample: with the `stty` configuration command failing (exit
status 1) but `os.open`, the drain and `fcntl` succeeding, `open_port` still
hands back a channel (file descriptor 3, unconfigured) instead of failing —
refuting the claim that a configuration failure yields `OpenError`. -/
theorem open_port_stty_failure_counterexample :
    open_port ⟨1, some 3, true, true⟩ = .channel 3 false ∧
    open_port ⟨1, some 3, true, true⟩ ≠ .failure := by
  exact ⟨rfl, by decide⟩

/-- C8 amended: `open_port` returns `None` exactly when `os.open`, the drain
reads, or the `fcntl` flag manipulation raise OSError; the exit status of the
`stty` line-discipline configuration is ignored, so whether a channel is
returned is independent of whether configuration succeeded. -/
theorem open_port_failure_condition (env : OpenEnv) :
    (open_port env = .failure ↔
       env.openRes = none ∨ env.drainOk = false ∨ env.fcntlOk = false) ∧
    (∀ s1 s2 : Nat,
       open_port { env with sttyStatus := s1 } = .failure ↔
       open_port { env with sttyStatus := s2 } = .failure) := by
  rcases env with ⟨s, o, d, f⟩
  cases o <;> cases d <;> cases f <;> simp [open_port]

/-- C9: the claim fails on the code.  A `"MIC_TOGGLE"` line received while
`saved_input_volume` is `None` and the volume-query osascript replies with a
non-integer (here the empty string) makes `int(...)` raise `ValueError`; the
exception escapes `run_session`, `main`'s handler catches only
`KeyboardInterrupt`, and the process terminates — not via an external
interrupt. -/
theorem mic_query_failure_crashes_process :
    run_session (initSession none [""])
        [⟨.chunk [77, 73, 67, 95, 84, 79, 71, 71, 76, 69, 10], "", true⟩] =
      (.raised .valueError, [Event.dispatched "MIC_TOGGLE"]) ∧
    mainRun [⟨["/dev/cu.usbmodem1101"], [], true, .raised .valueError⟩] =
      ([.locating, .connectedTo "/dev/cu.usbmodem1101", .closedChannel],
       .crashed .valueError) ∧
    SupExit.crashed .valueError ≠ .stopped ∧
    SupExit.crashed .valueError ≠ .looping := by
  refine ⟨by decide, by decide, by decide, by decide⟩

theorem appPush_writeFail (st : SessionState) (inp : TickInput) (evs : List Event)
    (h : pyStrip inp.appReply ≠ "" ∧ pyStrip inp.appReply ≠ st.last_app)
    (hw : inp.writeOk = false) :
    appPush st inp evs = (.ret .writeError, evs) := by
  simp [appPush, h, hw]

theorem appPush_writeOk (st : SessionState) (inp : TickInput) (evs : List Event)
    (h : pyStrip inp.appReply ≠ "" ∧ pyStrip inp.appReply ≠ st.last_app)
    (hw : inp.writeOk = true) :
    appPush st inp evs =
      (.next { st with last_app := pyStrip inp.appReply },
       evs ++ [Event.wrote (pyStrip inp.appReply ++ "\n")]) := by
  simp [appPush, h, hw]

theorem appPush_skip (st : SessionState) (inp : TickInput) (evs : List Event)
    (h : ¬(pyStrip inp.appReply ≠ "" ∧ pyStrip inp.appReply ≠ st.last_app)) :
    appPush st inp evs = (.next st, evs) := by
  simp [appPush, h]

theorem appPush_spec (st : SessionState) (inp : TickInput) (evs : List Event) :
    ∃ tail, (appPush st inp evs).2 = evs ++ tail ∧
      (∀ e ∈ tail, ∃ p, e = Event.wrote p) ∧
      (∀ st', (appPush st inp evs).1 = .next st' →
         st'.saved = st.saved ∧ st'.oracle = st.oracle ∧
         st'.read_buf = st.read_buf) ∧
      (inp.writeOk = true → ∃ st', (appPush st inp evs).1 = .next st') := by
  by_cases h : pyStrip inp.appReply ≠ "" ∧ pyStrip inp.appReply ≠ st.last_app
  · cases hw : inp.writeOk
    · have e1 := appPush_writeFail st inp evs h hw
      refine ⟨[], by simp [e1], by simp, ?_, ?_⟩
      · intro st' hst'
        rw [e1] at hst'
        simp at hst'
      · intro hcon
        simp_all
    · have e1 := appPush_writeOk st inp evs h hw
      refine ⟨[Event.wrote (pyStrip inp.appReply ++ "\n")], by simp [e1], ?_, ?_, ?_⟩
      · intro e he
        simp at he
        exact ⟨_, he⟩
      · intro st' hst'
        rw [e1] at hst'
        simp at hst'
        rw [← hst']
        exact ⟨rfl, rfl, rfl⟩
      · intro h2
        exact ⟨_, by rw [e1]⟩
  · have e1 := appPush_skip st inp evs h
    refine ⟨[], by simp [e1], by simp, ?_, ?_⟩
    · intro st' hst'
      rw [e1] at hst'
      simp at hst'
      rw [← hst']
      exact ⟨rfl, rfl, rfl⟩
    · intro h2
      exact ⟨st, by rw [e1]⟩

theorem processLines_cons_blank (saved : Option Int) (oracle : List String)
    (l : List Nat) (rest : List (List Nat))
    (hc : pyStrip (decodeReplace l) = "") :
    processLines saved oracle (l :: rest) = processLines saved oracle rest := by
  simp [processLines, hc]

theorem processLines_cons_cmd (saved : Option Int) (oracle : List String)
    (l : List Nat) (rest : List (List Nat))
    (hc : ¬pyStrip (decodeReplace l) = "") :
    processLines saved oracle (l :: rest) =
      (let d := handle_serial_command saved oracle (pyStrip (decodeReplace l))
       match d.exn with
       | some _ => d
       | none =>
           let r := processLines d.saved d.oracle rest
           ⟨r.saved, r.oracle, d.events ++ r.events, r.exn⟩) := by
  simp [processLines, hc]

theorem handle_toggle_ok (saved : Option Int) (oracle : List String)
    (s' : Option Int) (o' : List String) (calls : List HostCall)
    (htm : toggle_mic saved oracle = .ok (s', o', calls)) :
    handle_serial_command saved oracle "MIC_TOGGLE" =
      ⟨s', o', Event.dispatched "MIC_TOGGLE" :: calls.map Event.hostCall, none⟩ := by
  simp [handle_serial_command, htm]

theorem handle_toggle_err (saved : Option Int) (oracle : List String) (e : PyExn)
    (htm : toggle_mic saved oracle = .error e) :
    handle_serial_command saved oracle "MIC_TOGGLE" =
      ⟨saved, oracle, [Event.dispatched "MIC_TOGGLE"], some e⟩ := by
  simp [handle_serial_command, htm]

theorem handle_unknown (saved : Option Int) (oracle : List String) (cmd : String)
    (hm : cmd ≠ "MIC_TOGGLE") :
    handle_serial_command saved oracle cmd =
      ⟨saved, oracle, [Event.unknownCmd cmd], none⟩ := by
  simp [handle_serial_command, hm]

theorem processLines_saved_of_no_toggle (lines : List (List Nat))
    (saved : Option Int) (oracle : List String)
    (h : Event.dispatched "MIC_TOGGLE" ∉ (processLines saved oracle lines).events) :
    (processLines saved oracle lines).saved = saved ∧
    (processLines saved oracle lines).oracle = oracle := by
  induction lines generalizing saved oracle with
  | nil => exact ⟨rfl, rfl⟩
  | cons l rest ih =>
      by_cases hc : pyStrip (decodeReplace l) = ""
      · rw [processLines_cons_blank _ _ _ _ hc] at h ⊢
        exact ih saved oracle h
      · by_cases hm : pyStrip (decodeReplace l) = "MIC_TOGGLE"
        · exfalso
          apply h
          rw [processLines_cons_cmd _ _ _ _ hc, hm]
          cases htm : toggle_mic saved oracle with
          | ok out =>
              rcases out with ⟨s', o', calls⟩
              rw [handle_toggle_ok _ _ _ _ _ htm]
              simp
          | error e =>
              rw [handle_toggle_err _ _ _ htm]
              simp
        · rw [processLines_cons_cmd _ _ _ _ hc, handle_unknown _ _ _ hm] at h ⊢
          simp only [List.cons_append, List.nil_append, List.mem_cons] at h
          push_neg at h
          exact ih _ _ h.2

theorem sessionTick_saved_of_no_toggle (st : SessionState) (inp : TickInput)
    (st' : SessionState) (evs : List Event)
    (ht : sessionTick st inp = (.next st', evs))
    (h : Event.dispatched "MIC_TOGGLE" ∉ evs) :
    st'.saved = st.saved := by
  obtain ⟨re, app, w⟩ := inp
  cases re with
  | readErr => simp [sessionTick] at ht
  | noData =>
      have ht' : appPush st ⟨.noData, app, w⟩ [] = (.next st', evs) := ht
      obtain ⟨tail, -, -, hnext, -⟩ := appPush_spec st ⟨.noData, app, w⟩ []
      exact (hnext st' (by rw [ht'])).1
  | chunk bytes =>
      by_cases hb : bytes = []
      · subst hb
        simp [sessionTick] at ht
      · simp only [sessionTick, if_neg hb] at ht
        cases hexn : (processLines st.saved st.oracle (feed st.read_buf bytes).1).exn with
        | some e =>
            rw [hexn] at ht
            simp at ht
        | none =>
            rw [hexn] at ht
            have hpair : appPush
                { st with read_buf := (feed st.read_buf bytes).2,
                          saved := (processLines st.saved st.oracle (feed st.read_buf bytes).1).saved,
                          oracle := (processLines st.saved st.oracle (feed st.read_buf bytes).1).oracle }
                ⟨.chunk bytes, app, w⟩
                (processLines st.saved st.oracle (feed st.read_buf bytes).1).events =
                (.next st', evs) := ht
            obtain ⟨tail, hevs, -, hnext, -⟩ := appPush_spec
              { st with read_buf := (feed st.read_buf bytes).2,
                        saved := (processLines st.saved st.oracle (feed st.read_buf bytes).1).saved,
                        oracle := (processLines st.saved st.oracle (feed st.read_buf bytes).1).oracle }
              ⟨.chunk bytes, app, w⟩
              (processLines st.saved st.oracle (feed st.read_buf bytes).1).events
            have hsv := (hnext st' (by rw [hpair])).1
            have hmem : Event.dispatched "MIC_TOGGLE" ∉
                (processLines st.saved st.oracle (feed st.read_buf bytes).1).events := by
              intro hin
              apply h
              have hevs' : evs =
                  (processLines st.saved st.oracle (feed st.read_buf bytes).1).events ++ tail := by
                rw [← hevs, hpair]
              rw [hevs']
              exact List.mem_append_left _ hin
            have hps := processLines_saved_of_no_toggle _ st.saved st.oracle hmem
            rw [hsv]
            exact hps.1

/-- C4: MicState has exactly the two variants `Unmuted` and `Muted v` (the
`None` / `Some v` values of `saved_input_volume`), starts `Unmuted` at process
start, and every completed `toggle_mic` invocation moves to the other variant —
never leaving it unchanged; the state is a process-wide value that session
start leaves untouched, and a tick that dispatches no `MIC_TOGGLE` command
preserves it across the session (so it persists across sessions and
reconnects). -/
theorem micstate_toggle_invariant :
    micStateOf saved_input_volume_init = .unmuted ∧
    (∀ (saved : Option Int) (oracle : List String)
       (out : Option Int × List String × List HostCall),
       toggle_mic saved oracle = .ok out →
       out.1.isSome = !saved.isSome ∧ micStateOf out.1 ≠ micStateOf saved) ∧
    (∀ (saved : Option Int) (oracle : List String),
       (initSession saved oracle).saved = saved) ∧
    (∀ (st : SessionState) (inp : TickInput) (st' : SessionState)
       (evs : List Event),
       sessionTick st inp = (.next st', evs) →
       Event.dispatched "MIC_TOGGLE" ∉ evs → st'.saved = st.saved) := by
  refine ⟨rfl, ?_, fun _ _ => rfl, sessionTick_saved_of_no_toggle⟩
  intro saved oracle out htm
  cases saved with
  | none =>
      cases hv : pyInt (pyStrip (oracle.headD "")) with
      | none =>
          rw [show toggle_mic none oracle = .error .valueError by
            unfold toggle_mic; rw [hv]] at htm
          exact absurd htm (by simp)
      | some v =>
          rw [show toggle_mic none oracle =
              .ok (some v, oracle.tail, [HostCall.queryAndMute]) by
            unfold toggle_mic; rw [hv]] at htm
          cases htm
          simp [micStateOf]
  | some v =>
      rw [show toggle_mic (some v) oracle =
          .ok (none, oracle, [HostCall.restoreVolume v]) from rfl] at htm
      cases htm
      simp [micStateOf]

theorem processLines_unknown (saved : Option Int) (oracle : List String)
    (lines : List (List Nat))
    (h : ∀ l ∈ lines, pyStrip (decodeReplace l) ≠ "MIC_TOGGLE") :
    processLines saved oracle lines =
      ⟨saved, oracle,
       ((lines.map fun l => pyStrip (decodeReplace l)).filter (· ≠ "")).map
         Event.unknownCmd,
       none⟩ := by
  induction lines with
  | nil => rfl
  | cons l rest ih =>
      have hl := h l (by simp)
      have hrest : ∀ x ∈ rest, pyStrip (decodeReplace x) ≠ "MIC_TOGGLE" :=
        fun x hx => h x (by simp [hx])
      by_cases hc : pyStrip (decodeReplace l) = ""
      · rw [processLines_cons_blank _ _ _ _ hc, ih hrest]
        simp [hc]
      · rw [processLines_cons_cmd _ _ _ _ hc, handle_unknown _ _ _ hl]
        simp only []
        rw [ih hrest]
        simp [hc]

theorem processLines_blank (saved : Option Int) (oracle : List String)
    (lines : List (List Nat))
    (h : ∀ l ∈ lines, pyStrip (decodeReplace l) = "") :
    processLines saved oracle lines = ⟨saved, oracle, [], none⟩ := by
  induction lines with
  | nil => rfl
  | cons l rest ih =>
      rw [processLines_cons_blank _ _ _ _ (h l (by simp))]
      exact ih fun x hx => h x (by simp [hx])

/-- C5: a received command line whose stripped text is non-empty and not a
known command name is logged via the "Unknown command" path and dropped: the
mic state and oracle are unchanged, no host call and no dispatch happen, no
channel-level failure is raised, and the tick completes with `next` (the
session keeps ticking) rather than returning a `DisconnectReason`. -/
theorem unknown_command_logged_dropped (st : SessionState) (bytes : List Nat)
    (app : String)
    (hne : bytes ≠ [])
    (h : ∀ l ∈ (feed st.read_buf bytes).1,
       pyStrip (decodeReplace l) ≠ "" ∧ pyStrip (decodeReplace l) ≠ "MIC_TOGGLE") :
    ∃ st' evs, sessionTick st ⟨.chunk bytes, app, true⟩ = (.next st', evs) ∧
      st'.saved = st.saved ∧ st'.oracle = st.oracle ∧
      (∀ l ∈ (feed st.read_buf bytes).1,
         Event.unknownCmd (pyStrip (decodeReplace l)) ∈ evs) ∧
      (∀ e ∈ evs, (∀ c, e ≠ Event.hostCall c) ∧ (∀ cs, e ≠ Event.dispatched cs)) := by
  have hp := processLines_unknown st.saved st.oracle (feed st.read_buf bytes).1
    (fun l hl => (h l hl).2)
  have hred : sessionTick st ⟨.chunk bytes, app, true⟩ =
      appPush { st with read_buf := (feed st.read_buf bytes).2,
                        saved := st.saved, oracle := st.oracle }
        ⟨.chunk bytes, app, true⟩
        (((( feed st.read_buf bytes).1.map fun l =>
            pyStrip (decodeReplace l)).filter (· ≠ "")).map Event.unknownCmd) := by
    simp only [sessionTick, if_neg hne, hp]
  obtain ⟨tail, hevs, htail, hnext, hw⟩ := appPush_spec
    { st with read_buf := (feed st.read_buf bytes).2,
              saved := st.saved, oracle := st.oracle }
    ⟨.chunk bytes, app, true⟩
    (((( feed st.read_buf bytes).1.map fun l =>
        pyStrip (decodeReplace l)).filter (· ≠ "")).map Event.unknownCmd)
  obtain ⟨st', hst'⟩ := hw rfl
  refine ⟨st',
    (appPush { st with read_buf := (feed st.read_buf bytes).2,
                       saved := st.saved, oracle := st.oracle }
      ⟨.chunk bytes, app, true⟩
      ((((feed st.read_buf bytes).1.map fun l =>
          pyStrip (decodeReplace l)).filter (· ≠ "")).map Event.unknownCmd)).2,
    ?_, ?_, ?_, ?_, ?_⟩
  · rw [hred, ← hst']
  · exact (hnext st' hst').1
  · exact (hnext st' hst').2.1
  · intro l hl
    rw [hevs]
    apply List.mem_append_left
    apply List.mem_map_of_mem
    apply List.mem_filter_of_mem (List.mem_map_of_mem _ hl)
    simpa using (h l hl).1
  · intro e he
    rw [hevs] at he
    rcases List.mem_append.mp he with he | he
    · obtain ⟨c, -, rfl⟩ := List.mem_map.mp he
      exact ⟨fun c => by simp, fun cs => by simp⟩
    · obtain ⟨p, rfl⟩ := htail e he
      exact ⟨fun c => by simp, fun cs => by simp⟩

theorem unknown_command_logged_dropped_witness :
    ∃ st' evs,
      sessionTick (initSession none [])
          ⟨.chunk [70, 79, 79, 95, 66, 65, 82, 10], "", true⟩ = (.next st', evs) ∧
      st'.saved = none ∧
      Event.unknownCmd "FOO_BAR" ∈ evs := by
  obtain ⟨st', evs, h1, h2, -, h4, -⟩ :=
    unknown_command_logged_dropped (initSession none [])
      [70, 79, 79, 95, 66, 65, 82, 10] "" (by decide) (by decide)
  refine ⟨st', evs, h1, h2, ?_⟩
  have := h4 [70, 79, 79, 95, 66, 65, 82] (by decide)
  simpa using this

/-- C10: a received line whose stripped text is empty is dropped silently: the
dispatch loop for such lines produces no events (nothing dispatched, no
"unknown command" log) and leaves the mic state and oracle unchanged, and the
whole tick behaves exactly like a tick that read no data (apart from the
consumed buffer). -/
theorem blank_line_dropped_silently (st : SessionState) (bytes : List Nat)
    (app : String) (w : Bool) (hne : bytes ≠ [])
    (h : ∀ l ∈ (feed st.read_buf bytes).1, pyStrip (decodeReplace l) = "") :
    processLines st.saved st.oracle (feed st.read_buf bytes).1 =
      ⟨st.saved, st.oracle, [], none⟩ ∧
    sessionTick st ⟨.chunk bytes, app, w⟩ =
      sessionTick { st with read_buf := (feed st.read_buf bytes).2 }
        ⟨.noData, app, w⟩ := by
  have hp := processLines_blank st.saved st.oracle _ h
  refine ⟨hp, ?_⟩
  simp only [sessionTick, if_neg hne, hp]
  rfl

theorem blank_line_dropped_silently_witness :
    processLines none [] (feed [] [32, 32, 10]).1 = ⟨none, [], [], none⟩ ∧
    sessionTick (initSession none []) ⟨.chunk [32, 32, 10], "Safari", true⟩ =
      sessionTick ⟨"", [], none, []⟩ ⟨.noData, "Safari", true⟩ := by
  have h := blank_line_dropped_silently (initSession none []) [32, 32, 10]
    "Safari" true (by decide) (by decide)
  exact ⟨h.1, h.2⟩

theorem micstate_toggle_invariant_witness :
    toggle_mic none ["7"] = .ok (some 7, [], [HostCall.queryAndMute]) ∧
    (some 7 : Option Int).isSome = !(none : Option Int).isSome ∧
    micStateOf (some 7) ≠ micStateOf none := by
  have h := micstate_toggle_invariant.2.1 none ["7"]
    (some 7, [], [HostCall.queryAndMute]) rfl
  exact ⟨rfl, h.1, h.2⟩

theorem mainStep_locating_once (i : IterInput) :
    (mainStep i).1.count .locating = 1 := by
  rcases i with ⟨argv, glob, openOk, sess⟩
  cases hfp : find_port argv glob with
  | none => simp [mainStep, hfp]
  | some p =>
      cases openOk with
      | false => simp [mainStep, hfp]
      | true => cases sess <;> simp [mainStep, hfp, List.count_cons]

theorem mainStep_failure_continue (i : IterInput)
    (h : isDisconnect i.sess = true ∨ find_port i.argvTail i.globMatches = none ∨
       i.openOk = false) :
    (mainStep i).2 = none ∧
    (mainStep i).1.count (.sleep RETRY_INTERVAL) = 1 := by
  rcases i with ⟨argv, glob, openOk, sess⟩
  cases hfp : find_port argv glob with
  | none => simp [mainStep, hfp]
  | some p =>
      cases openOk with
      | false => simp [mainStep, hfp]
      | true =>
          cases sess with
          | disconnected r => simp [mainStep, hfp, List.count_cons]
          | interrupted => simp [isDisconnect, hfp] at h
          | raised e => simp [isDisconnect, hfp] at h

theorem mainRun_looping (inputs : List IterInput)
    (h : ∀ i ∈ inputs,
       isDisconnect i.sess = true ∨ find_port i.argvTail i.globMatches = none ∨
       i.openOk = false) :
    (mainRun inputs).2 = .looping := by
  induction inputs with
  | nil => rfl
  | cons i rest ih =>
      have hc := (mainStep_failure_continue i (h i (by simp))).1
      simp only [mainRun, hc]
      exact ih fun x hx => h x (by simp [hx])

theorem mainRun_locating_replicate (n : Nat) (p : String) (r : DisconnectReason)
    (last : IterInput) :
    (mainRun (List.replicate n ⟨[p], [], true, .disconnected r⟩ ++ [last])).1.count
      .locating = n + 1 := by
  induction n with
  | zero =>
      simp only [List.replicate, List.nil_append]
      cases hml : (mainStep last).2 with
      | some ex =>
          simp [mainRun, hml, mainStep_locating_once last]
      | none =>
          simp [mainRun, hml, mainStep_locating_once last]
  | succ n ih =>
      have hstep : mainStep ⟨[p], [], true, .disconnected r⟩ =
          ([.locating, .connectedTo p, .closedChannel, .sleep RETRY_INTERVAL],
           none) := by
        simp [mainStep, find_port]
      simp only [List.replicate_succ, List.cons_append, mainRun, hstep]
      simp [List.count_cons, ih]

/-- C7: for every failure outcome the supervisor can hit — discovery NotFound,
OpenError, or any DisconnectReason ending an active session — the loop
iteration performs exactly one fixed cooldown wait of `RETRY_INTERVAL = 5`
time units and continues to the next locate attempt; a run of such iterations
never terminates on its own; and a run with `n` consecutive disconnects enters
`Locating` exactly `n + 1` times. -/
theorem supervisor_cooldown_retry_forever (inputs : List IterInput) (n : Nat)
    (p : String) (r : DisconnectReason) (last : IterInput)
    (h : ∀ i ∈ inputs,
       isDisconnect i.sess = true ∨ find_port i.argvTail i.globMatches = none ∨
       i.openOk = false) :
    (mainRun inputs).2 = .looping ∧
    (∀ i ∈ inputs, (mainStep i).2 = none ∧
       (mainStep i).1.count (.sleep RETRY_INTERVAL) = 1 ∧
       (mainStep i).1.count .locating = 1) ∧
    (mainRun (List.replicate n ⟨[p], [], true, .disconnected r⟩ ++ [last])).1.count
      .locating = n + 1 := by
  refine ⟨mainRun_looping inputs h, ?_, mainRun_locating_replicate n p r last⟩
  intro i hi
  obtain ⟨h1, h2⟩ := mainStep_failure_continue i (h i hi)
  exact ⟨h1, h2, mainStep_locating_once i⟩

theorem supervisor_cooldown_retry_forever_witness :
    (mainRun [⟨[], [], false, .disconnected .eof⟩,
              ⟨["/dev/cu.usbmodem1101"], [], true, .disconnected .readError⟩]).2 =
      .looping ∧
    (mainRun (List.replicate 3
        ⟨["/dev/cu.usbmodem1101"], [], true, .disconnected .eof⟩ ++
        [⟨[], [], false, .disconnected .eof⟩])).1.count .locating = 3 + 1 := by
  have h := supervisor_cooldown_retry_forever
    [⟨[], [], false, .disconnected .eof⟩,
     ⟨["/dev/cu.usbmodem1101"], [], true, .disconnected .readError⟩]
    3 "/dev/cu.usbmodem1101" .eof ⟨[], [], false, .disconnected .eof⟩
    (by decide)
  exact ⟨h.1, h.2.2⟩

end Macropad
